import Mathlib

/-!
Shallow embedding of `dsan-metadata-stripper` (src/main.py).

The program strips metadata from PDF, DOCX and JPEG/PNG files.  We model:
 * file paths as lists of components (`PathT`), with `pathlib`'s `name`,
   `suffix` and `lower()` semantics embedded as Lean functions;
 * the file system as an association list from paths to file data;
 * each format handler (`strip_pdf_metadata`, `strip_docx_metadata`,
   `strip_image_metadata`) as a total function on the file system that
   catches a possible library error (modelled by an injected `FailPoint`)
   and returns the new file system plus its log entries;
 * the dispatcher `process_file` and the walker `process_directory`
   (Python `os.walk` with the non-recursive `break`).
-/

/-- A file path, as its components (what `pathlib.Path.parts` yields). -/
abbrev PathT : Type := List String

/-- Python `Path.name`: the final path component (empty for an empty path). -/
def nameOf (p : PathT) : String := List.getLastD p ""

/-- Index of the last occurrence of `'.'` in a character list
(Python `str.rfind`, as `none` instead of `-1`). -/
def lastDotIdx : List Char → Option Nat
  | [] => none
  | c :: cs =>
    match lastDotIdx cs with
    | some i => some (i + 1)
    | none => if c = '.' then some 0 else none

/-- Python `pathlib` `suffix` of a file name: the substring from the last
dot, unless the dot is the first character or the last character, in which
case the suffix is empty. -/
def pySuffix (name : String) : String :=
  let cs := name.toList
  match lastDotIdx cs with
  | some i => if 0 < i ∧ i < cs.length - 1 then String.mk (List.drop i cs) else ""
  | none => ""

/-- ASCII lower-casing of one character (Python `str.lower` restricted to
ASCII, which is all that extensions contain). -/
def asciiLower (c : Char) : Char :=
  if 'A' ≤ c ∧ c ≤ 'Z' then Char.ofNat (c.toNat + 32) else c

/-- Python `str.lower` on an extension string. -/
def pyLower (s : String) : String := String.mk (s.toList.map asciiLower)

/-- The lower-cased extension the dispatcher switches on:
`file_path.suffix.lower()` in `process_file`. -/
def extOf (p : PathT) : String := pyLower (pySuffix (nameOf p))

/-- A PDF document as PyPDF2 presents it: a list of pages (abstract page
content identifiers) and an optional document-info dictionary. -/
structure PdfDoc where
  pages : List Nat
  info : Option (List (String × String))
deriving DecidableEq

/-- The six core properties the DOCX handler clears. -/
structure DocxProps where
  author : Option String
  title : Option String
  subject : Option String
  keywords : Option String
  comments : Option String
  lastModifiedBy : Option String
deriving DecidableEq

/-- An XML element: a tag and child elements (text content is irrelevant
to the claims and omitted). -/
inductive Xml where
  | node (tag : String) (children : List Xml)

/-- A DOCX document as python-docx presents it: core properties plus the
children of the `w:document` root element. -/
structure DocxDoc where
  props : DocxProps
  body : List Xml

/-- An image as PIL presents it: mode, dimensions, pixel sequence
(`getdata` order) and optional ancillary metadata (EXIF etc.). -/
structure ImgData where
  mode : String
  width : Nat
  height : Nat
  pixels : List Nat
  meta : Option (List (String × String))
deriving DecidableEq

/-- Contents of a file on disk. `truncated` models a destination file
created by `open(..., "wb")` whose write was interrupted by an error. -/
inductive FileData where
  | pdf (d : PdfDoc)
  | docx (d : DocxDoc)
  | img (i : ImgData)
  | truncated
  | other

/-- The file system: an association list from paths to file data
(later entries shadowed by earlier ones). -/
def FS : Type := List (PathT × FileData)

/-- Look a path up in the file system. -/
def lookupFS (fs : FS) (p : PathT) : Option FileData :=
  match fs with
  | [] => none
  | (q, d) :: rest => if q = p then some d else lookupFS rest p

/-- Create or overwrite the file at `p`. -/
def setFile (fs : FS) (p : PathT) (d : FileData) : FS := (p, d) :: fs

/-- A point at which the underlying library raises an error while a
handler processes one file: while loading/parsing the source, while
opening the destination, or midway through writing the destination. -/
inductive FailPoint where
  | onLoad
  | onOpen
  | onWrite
deriving DecidableEq

/-- One log line; each carries the source path it mentions. -/
inductive LogEntry where
  | info (src : PathT) (dst : PathT)
  | error (src : PathT)
  | warn (src : PathT)
deriving DecidableEq

/-- The source path a log entry mentions. -/
def logSrc : LogEntry → PathT
  | .info s _ => s
  | .error s => s
  | .warn s => s

/-- `strip_pdf_metadata`: read the PDF, append each page unchanged to a
fresh writer, set the writer's info dictionary to `None`, write to the
destination.  Any error is caught and logged; a load/open error leaves the
file system unchanged, an error midway through `writer.write` leaves a
truncated destination file (the `open` already created it). -/
def strip_pdf_metadata (fault : Option FailPoint) (inp out : PathT) (fs : FS) :
    FS × List LogEntry :=
  if fault = some .onLoad then (fs, [.error inp])
  else
    match lookupFS fs inp with
    | some (.pdf d) =>
      if fault = some .onOpen then (fs, [.error inp])
      else if fault = some .onWrite then (setFile fs out .truncated, [.error inp])
      else (setFile fs out (.pdf ⟨d.pages, none⟩), [.info inp out])
    | _ => (fs, [.error inp])

/-- Is this element a `w:comment` element? -/
def isComment : Xml → Bool
  | .node t _ => t = "w:comment"

/-- Effect of the DOCX handler's loop over `doc.element.xpath("//w:comment")`:
every `w:comment` element anywhere in the forest is detached from its
parent (its whole subtree disappears with it). -/
def stripCommentsL : List Xml → List Xml
  | [] => []
  | Xml.node t cs :: rest =>
    if t = "w:comment" then stripCommentsL rest
    else Xml.node t (stripCommentsL cs) :: stripCommentsL rest

/-- Number of `w:comment` elements in a forest, at any depth. -/
def countCommentsL : List Xml → Nat
  | [] => 0
  | Xml.node t cs :: rest =>
    (if t = "w:comment" then 1 else 0) + countCommentsL cs + countCommentsL rest

/-- `strip_docx_metadata`: load the document, set the six core properties
to `None`, remove every `w:comment` element from the document tree, save.
Any error is caught and logged. -/
def strip_docx_metadata (fault : Option FailPoint) (inp out : PathT) (fs : FS) :
    FS × List LogEntry :=
  if fault = some .onLoad then (fs, [.error inp])
  else
    match lookupFS fs inp with
    | some (.docx d) =>
      let cleaned : DocxDoc :=
        { props := ⟨none, none, none, none, none, none⟩
          body := stripCommentsL d.body }
      if fault = some .onOpen then (fs, [.error inp])
      else if fault = some .onWrite then (setFile fs out .truncated, [.error inp])
      else (setFile fs out (.docx cleaned), [.info inp out])
    | _ => (fs, [.error inp])

/-- PIL `Image.putdata` on a fresh image: pixel data is written from the
start; surplus data is ignored, missing data leaves the fresh zero pixels. -/
def putdataPixels (w h : Nat) (data : List Nat) : List Nat :=
  List.take (w * h) data ++ List.replicate (w * h - data.length) 0

/-- `strip_image_metadata`: open the image, take `list(image.getdata())`,
build `Image.new(image.mode, image.size)` (a fresh buffer with no
ancillary metadata), `putdata` the pixels into it, save.  Any error is
caught and logged. -/
def strip_image_metadata (fault : Option FailPoint) (inp out : PathT) (fs : FS) :
    FS × List LogEntry :=
  if fault = some .onLoad then (fs, [.error inp])
  else
    match lookupFS fs inp with
    | some (.img i) =>
      let fresh : ImgData :=
        { mode := i.mode, width := i.width, height := i.height
          pixels := putdataPixels i.width i.height i.pixels
          meta := none }
      if fault = some .onOpen then (fs, [.error inp])
      else if fault = some .onWrite then (setFile fs out .truncated, [.error inp])
      else (setFile fs out (.img fresh), [.info inp out])
    | _ => (fs, [.error inp])

/-- The destination path `output_dir / file_path.name` used by
`process_file`. -/
def outPathOf (outDir : PathT) (p : PathT) : PathT := outDir ++ [nameOf p]

/-- `process_file`: dispatch on the lower-cased extension; unsupported
extensions get a warning and no handler runs. -/
def process_file (fault : Option FailPoint) (p : PathT) (outDir : PathT) (fs : FS) :
    FS × List LogEntry :=
  let ext := extOf p
  let out := outPathOf outDir p
  if ext = ".pdf" then strip_pdf_metadata fault p out fs
  else if ext = ".docx" then strip_docx_metadata fault p out fs
  else if ext ∈ [".jpg", ".jpeg", ".png"] then strip_image_metadata fault p out fs
  else (fs, [.warn p])

/-- Process a list of files in order, threading the file system and
collecting logs; the fault oracle says where (if anywhere) the library
fails on each file. -/
def processBatch (faultOf : PathT → Option FailPoint) (files : List PathT)
    (outDir : PathT) (fs : FS) : FS × List LogEntry :=
  match files with
  | [] => (fs, [])
  | f :: rest =>
    let r1 := process_file (faultOf f) f outDir fs
    let r2 := processBatch faultOf rest outDir r1.1
    (r2.1, r1.2 ++ r2.2)

/-- A directory tree: the directory's name, its regular files, and its
subdirectories. -/
inductive DirTree where
  | node (dname : String) (files : List String) (subdirs : List DirTree)

/-- The directory's regular files. -/
def topFiles : DirTree → List String
  | .node _ fs _ => fs

mutual
/-- Python `os.walk` (top-down): the `(root, files)` pairs it yields, in
depth-first preorder, starting with the walked directory itself.  The
`dirs` component is ignored by the program and omitted. -/
def osWalk (root : PathT) : DirTree → List (PathT × List String)
  | .node _ fs subs => (root, fs) :: osWalkL root subs

/-- `os.walk` over a list of subdirectories. -/
def osWalkL (root : PathT) : List DirTree → List (PathT × List String)
  | [] => []
  | DirTree.node n fs subs :: ts =>
    osWalk (root ++ [n]) (DirTree.node n fs subs) ++ osWalkL root ts
end

/-- The file paths `process_directory` dispatches: all of `os.walk` when
recursive, only its first yield when not (the loop body ends with
`if not recursive: break`). -/
def filesProcessed (inputDir : PathT) (t : DirTree) (recursive : Bool) :
    List PathT :=
  let seq := osWalk inputDir t
  (if recursive then seq else List.take 1 seq).flatMap
    (fun pr => pr.2.map (fun f => pr.1 ++ [f]))

/-- `process_directory`: walk the input directory and dispatch each file
found, stopping after the top level when not recursive. -/
def process_directory (faultOf : PathT → Option FailPoint) (inputDir : PathT)
    (t : DirTree) (outDir : PathT) (recursive : Bool) (fs : FS) :
    FS × List LogEntry :=
  processBatch faultOf (filesProcessed inputDir t recursive) outDir fs

mutual
/-- All files in the tree, at every depth, with their full paths
(depth-first preorder). -/
def allFiles (root : PathT) : DirTree → List PathT
  | .node _ fs subs => fs.map (fun f => root ++ [f]) ++ allFilesL root subs

/-- All files under a list of subdirectories. -/
def allFilesL (root : PathT) : List DirTree → List PathT
  | [] => []
  | DirTree.node n fs subs :: ts =>
    allFiles (root ++ [n]) (DirTree.node n fs subs) ++ allFilesL root ts
end


/-! ## Helper lemmas -/

theorem lookupFS_setFile_eq (fs : FS) (p : PathT) (d : FileData) :
    lookupFS (setFile fs p d) p = some d := by
  simp [lookupFS, setFile]

theorem lookupFS_setFile_ne (fs : FS) (p : PathT) (d : FileData) (q : PathT)
    (h : q ≠ p) : lookupFS (setFile fs p d) q = lookupFS fs q := by
  show (if p = q then some d else lookupFS fs q) = lookupFS fs q
  exact if_neg fun h' => h h'.symm

theorem countCommentsL_strip (l : List Xml) :
    countCommentsL (stripCommentsL l) = 0 := by
  induction l using stripCommentsL.induct <;>
    simp_all [stripCommentsL, countCommentsL]

theorem strip_pdf_log (fault : Option FailPoint) (inp out : PathT) (fs : FS) :
    (strip_pdf_metadata fault inp out fs).2 = [.error inp] ∨
    (strip_pdf_metadata fault inp out fs).2 = [.info inp out] := by
  unfold strip_pdf_metadata
  repeat' split <;> try simp

theorem strip_docx_log (fault : Option FailPoint) (inp out : PathT) (fs : FS) :
    (strip_docx_metadata fault inp out fs).2 = [.error inp] ∨
    (strip_docx_metadata fault inp out fs).2 = [.info inp out] := by
  unfold strip_docx_metadata
  repeat' split <;> try simp

theorem strip_image_log (fault : Option FailPoint) (inp out : PathT) (fs : FS) :
    (strip_image_metadata fault inp out fs).2 = [.error inp] ∨
    (strip_image_metadata fault inp out fs).2 = [.info inp out] := by
  unfold strip_image_metadata
  repeat' split <;> try simp

theorem strip_pdf_frame (fault : Option FailPoint) (inp out : PathT) (fs : FS)
    (q : PathT) (h : q ≠ out) :
    lookupFS ((strip_pdf_metadata fault inp out fs).1) q = lookupFS fs q := by
  unfold strip_pdf_metadata
  repeat' split <;> try simp [lookupFS_setFile_ne _ _ _ _ h]

theorem strip_docx_frame (fault : Option FailPoint) (inp out : PathT) (fs : FS)
    (q : PathT) (h : q ≠ out) :
    lookupFS ((strip_docx_metadata fault inp out fs).1) q = lookupFS fs q := by
  unfold strip_docx_metadata
  repeat' split <;> try simp [lookupFS_setFile_ne _ _ _ _ h]

theorem strip_image_frame (fault : Option FailPoint) (inp out : PathT) (fs : FS)
    (q : PathT) (h : q ≠ out) :
    lookupFS ((strip_image_metadata fault inp out fs).1) q = lookupFS fs q := by
  unfold strip_image_metadata
  repeat' split <;> try simp [lookupFS_setFile_ne _ _ _ _ h]

/-! ## Claims -/

/-- C1: for every PDF input the handler accepts, the document written at
the destination has the same page count as the input and its
document-info dictionary is absent. -/
theorem pdf_strips_info_keeps_pages (inp out : PathT) (fs : FS) (d : PdfDoc)
    (h : lookupFS fs inp = some (.pdf d)) :
    ∃ d' : PdfDoc,
      lookupFS ((strip_pdf_metadata none inp out fs).1) out = some (.pdf d') ∧
      d'.pages.length = d.pages.length ∧ d'.info = none := by
  refine ⟨⟨d.pages, none⟩, ?_, rfl, rfl⟩
  unfold strip_pdf_metadata
  simp [h, lookupFS_setFile_eq]

/-- C1 witness: a one-page PDF with an author entry, sanitized. -/
theorem pdf_strips_info_keeps_pages_witness :
    ∃ d' : PdfDoc,
      lookupFS ((strip_pdf_metadata none ["in", "a.pdf"] ["out", "a.pdf"]
          [(["in", "a.pdf"], FileData.pdf ⟨[7], some [("Author", "x")]⟩)]).1)
          ["out", "a.pdf"] = some (.pdf d') ∧
      d'.pages.length = (PdfDoc.mk [7] (some [("Author", "x")])).pages.length ∧
      d'.info = none :=
  pdf_strips_info_keeps_pages ["in", "a.pdf"] ["out", "a.pdf"]
    [(["in", "a.pdf"], FileData.pdf ⟨[7], some [("Author", "x")]⟩)]
    ⟨[7], some [("Author", "x")]⟩ rfl

/-- C2: for every DOCX input the handler accepts, the document written at
the destination has all six core properties absent and zero `w:comment`
elements in its tree. -/
theorem docx_clears_props_and_comments (inp out : PathT) (fs : FS) (d : DocxDoc)
    (h : lookupFS fs inp = some (.docx d)) :
    ∃ d' : DocxDoc,
      lookupFS ((strip_docx_metadata none inp out fs).1) out = some (.docx d') ∧
      d'.props.author = none ∧ d'.props.title = none ∧
      d'.props.subject = none ∧ d'.props.keywords = none ∧
      d'.props.comments = none ∧ d'.props.lastModifiedBy = none ∧
      countCommentsL d'.body = 0 := by
  refine ⟨⟨⟨none, none, none, none, none, none⟩, stripCommentsL d.body⟩,
    ?_, rfl, rfl, rfl, rfl, rfl, rfl, countCommentsL_strip d.body⟩
  unfold strip_docx_metadata
  simp [h, lookupFS_setFile_eq]

/-- C2 witness: a DOCX with an author, a title and two comments (one of
them nested inside a paragraph), sanitized. -/
theorem docx_clears_props_and_comments_witness :
    countCommentsL [Xml.node "w:p" [Xml.node "w:comment" []],
      Xml.node "w:comment" []] = 2 ∧
    ∃ d' : DocxDoc,
      lookupFS ((strip_docx_metadata none ["in", "b.docx"] ["out", "b.docx"]
          [(["in", "b.docx"], FileData.docx
            ⟨⟨some "alice", some "t", none, none, none, none⟩,
             [Xml.node "w:p" [Xml.node "w:comment" []],
              Xml.node "w:comment" []]⟩)]).1)
          ["out", "b.docx"] = some (.docx d') ∧
      d'.props.author = none ∧ d'.props.title = none ∧
      d'.props.subject = none ∧ d'.props.keywords = none ∧
      d'.props.comments = none ∧ d'.props.lastModifiedBy = none ∧
      countCommentsL d'.body = 0 :=
  ⟨by simp [countCommentsL],
   docx_clears_props_and_comments ["in", "b.docx"] ["out", "b.docx"]
    [(["in", "b.docx"], FileData.docx
      ⟨⟨some "alice", some "t", none, none, none, none⟩,
       [Xml.node "w:p" [Xml.node "w:comment" []], Xml.node "w:comment" []]⟩)]
    ⟨⟨some "alice", some "t", none, none, none, none⟩,
     [Xml.node "w:p" [Xml.node "w:comment" []], Xml.node "w:comment" []]⟩ rfl⟩

/-- C3: for every JPEG/PNG input the handler accepts, the image written at
the destination has the input's mode, dimensions and pixel values, and
carries no ancillary metadata. -/
theorem image_keeps_pixels_drops_meta (inp out : PathT) (fs : FS) (i : ImgData)
    (h : lookupFS fs inp = some (.img i))
    (hlen : i.pixels.length = i.width * i.height) :
    ∃ i' : ImgData,
      lookupFS ((strip_image_metadata none inp out fs).1) out = some (.img i') ∧
      i'.mode = i.mode ∧ i'.width = i.width ∧ i'.height = i.height ∧
      i'.pixels = i.pixels ∧ i'.meta = none := by
  refine ⟨⟨i.mode, i.width, i.height, putdataPixels i.width i.height i.pixels,
    none⟩, ?_, rfl, rfl, rfl, ?_, rfl⟩
  · unfold strip_image_metadata
    simp [h, lookupFS_setFile_eq]
  · simp [putdataPixels, hlen, List.take_of_length_le]

/-- C3 witness: a 2-by-1 image with an EXIF block, sanitized. -/
theorem image_keeps_pixels_drops_meta_witness :
    (ImgData.mk "RGB" 2 1 [5, 9] (some [("exif", "gps")])).pixels.length =
      (ImgData.mk "RGB" 2 1 [5, 9] (some [("exif", "gps")])).width *
      (ImgData.mk "RGB" 2 1 [5, 9] (some [("exif", "gps")])).height ∧
    ∃ i' : ImgData,
      lookupFS ((strip_image_metadata none ["in", "c.png"] ["out", "c.png"]
          [(["in", "c.png"], FileData.img ⟨"RGB", 2, 1, [5, 9],
            some [("exif", "gps")]⟩)]).1)
          ["out", "c.png"] = some (.img i') ∧
      i'.mode = "RGB" ∧ i'.width = 2 ∧ i'.height = 1 ∧
      i'.pixels = [5, 9] ∧ i'.meta = none :=
  ⟨rfl,
   image_keeps_pixels_drops_meta ["in", "c.png"] ["out", "c.png"]
    [(["in", "c.png"], FileData.img ⟨"RGB", 2, 1, [5, 9], some [("exif", "gps")]⟩)]
    ⟨"RGB", 2, 1, [5, 9], some [("exif", "gps")]⟩ rfl rfl⟩

theorem process_file_logSrc (fault : Option FailPoint) (p outDir : PathT)
    (fs : FS) : (process_file fault p outDir fs).2.map logSrc = [p] := by
  simp only [process_file]
  split_ifs
  · rcases strip_pdf_log fault p (outPathOf outDir p) fs with h | h <;>
      simp [h, logSrc]
  · rcases strip_docx_log fault p (outPathOf outDir p) fs with h | h <;>
      simp [h, logSrc]
  · rcases strip_image_log fault p (outPathOf outDir p) fs with h | h <;>
      simp [h, logSrc]
  · simp [logSrc]

theorem processBatch_logSrc (faultOf : PathT → Option FailPoint)
    (files : List PathT) (outDir : PathT) (fs : FS) :
    (processBatch faultOf files outDir fs).2.map logSrc = files := by
  induction files generalizing fs with
  | nil => simp [processBatch]
  | cons f rest ih => simp [processBatch, process_file_logSrc, ih]

/-- C4: every per-file handler catches its errors and logs the file's
path, so a batch run over any list of files, with the library failing at
arbitrary points on arbitrary files, still processes every file: the run
emits exactly one log line per file, in order, each naming that file. -/
theorem handlers_catch_and_continue (faultOf : PathT → Option FailPoint)
    (files : List PathT) (outDir : PathT) (fs : FS) :
    (processBatch faultOf files outDir fs).2.map logSrc = files :=
  processBatch_logSrc faultOf files outDir fs

/-- C5 counterexample: a PDF whose write fails midway.  The handler fails
(it logs an error for the file), yet a truncated file exists at the
destination, because `open(output_path, "wb")` already created it before
`writer.write` raised. -/
theorem pdf_write_failure_leaves_partial_output :
    (strip_pdf_metadata (some .onWrite) ["in", "a.pdf"] ["out", "a.pdf"]
        [(["in", "a.pdf"], FileData.pdf ⟨[1], some [("Author", "x")]⟩)]).2
      = [LogEntry.error ["in", "a.pdf"]] ∧
    lookupFS ((strip_pdf_metadata (some .onWrite) ["in", "a.pdf"]
        ["out", "a.pdf"]
        [(["in", "a.pdf"], FileData.pdf ⟨[1], some [("Author", "x")]⟩)]).1)
        ["out", "a.pdf"] = some FileData.truncated :=
  ⟨rfl, rfl⟩

/-- C5 (amended): if the handler fails anywhere before writing the
destination (load or open error), the file system is unchanged, so no
output file is produced; only a failure midway through the write can
leave a (truncated) destination file behind. -/
theorem pdf_failure_before_write_no_output (fault : Option FailPoint)
    (inp out : PathT) (fs : FS) (hw : fault ≠ some FailPoint.onWrite)
    (hfail : (strip_pdf_metadata fault inp out fs).2 = [LogEntry.error inp]) :
    (strip_pdf_metadata fault inp out fs).1 = fs := by
  rcases fault with _ | fp
  · unfold strip_pdf_metadata at hfail ⊢
    cases hl : lookupFS fs inp with
    | none => simp [hl]
    | some fd => cases fd <;> simp_all [hl]
  · cases fp with
    | onLoad => simp [strip_pdf_metadata]
    | onOpen =>
      unfold strip_pdf_metadata
      cases hl : lookupFS fs inp with
      | none => simp
      | some fd => cases fd <;> simp [hl]
    | onWrite => exact absurd rfl hw

/-- C5 (amended) witness: a load failure on a concrete file system leaves
it unchanged. -/
theorem pdf_failure_before_write_no_output_witness :
    (strip_pdf_metadata (some .onLoad) ["in", "a.pdf"] ["out", "a.pdf"]
        [(["in", "a.pdf"], FileData.pdf ⟨[1], some [("Author", "x")]⟩)]).1
      = [(["in", "a.pdf"], FileData.pdf ⟨[1], some [("Author", "x")]⟩)] :=
  pdf_failure_before_write_no_output (some .onLoad) ["in", "a.pdf"]
    ["out", "a.pdf"]
    [(["in", "a.pdf"], FileData.pdf ⟨[1], some [("Author", "x")]⟩)]
    (by simp) rfl

/-- C6: the dispatcher routes by the lower-cased extension: `.pdf` to the
PDF handler, `.docx` to the DOCX handler, `.jpg`/`.jpeg`/`.png` to the
image handler, and anything else gets a warning with the file system
untouched. -/
theorem dispatch_by_lowercased_extension (fault : Option FailPoint)
    (p outDir : PathT) (fs : FS) :
    (extOf p = ".pdf" → process_file fault p outDir fs
        = strip_pdf_metadata fault p (outPathOf outDir p) fs) ∧
    (extOf p = ".docx" → process_file fault p outDir fs
        = strip_docx_metadata fault p (outPathOf outDir p) fs) ∧
    (extOf p ∈ [".jpg", ".jpeg", ".png"] → process_file fault p outDir fs
        = strip_image_metadata fault p (outPathOf outDir p) fs) ∧
    (extOf p ∉ [".pdf", ".docx", ".jpg", ".jpeg", ".png"] →
        process_file fault p outDir fs = (fs, [LogEntry.warn p])) := by
  refine ⟨fun h => ?_, fun h => ?_, fun h => ?_, fun h => ?_⟩
  · simp [process_file, h]
  · simp [process_file, h]
  · simp only [List.mem_cons, List.not_mem_nil, or_false] at h
    rcases h with h | h | h <;> simp [process_file, h]
  · simp only [List.mem_cons, List.not_mem_nil, or_false, not_or] at h
    obtain ⟨h1, h2, h3, h4, h5⟩ := h
    simp [process_file, h1, h2, h3, h4, h5]

/-- C6 witness: a `.PDF` file (upper-case) goes to the PDF handler; a
`.txt` file only gets a warning. -/
theorem dispatch_by_lowercased_extension_witness :
    process_file none ["d", "a.PDF"] ["out"] []
      = strip_pdf_metadata none ["d", "a.PDF"] ["out", "a.PDF"] [] ∧
    process_file none ["d", "b.txt"] ["out"] []
      = ([], [LogEntry.warn ["d", "b.txt"]]) :=
  ⟨(dispatch_by_lowercased_extension none ["d", "a.PDF"] ["out"] []).1
      (by decide),
   (dispatch_by_lowercased_extension none ["d", "b.txt"] ["out"] []).2.2.2
      (by decide)⟩

mutual
theorem osWalk_flatMap (root : PathT) (t : DirTree) :
    (osWalk root t).flatMap (fun pr => pr.2.map fun f => pr.1 ++ [f])
      = allFiles root t := by
  cases t with
  | node n fs subs =>
    simp [osWalk, allFiles, osWalkL_flatMap root subs]

theorem osWalkL_flatMap (root : PathT) (ts : List DirTree) :
    (osWalkL root ts).flatMap (fun pr => pr.2.map fun f => pr.1 ++ [f])
      = allFilesL root ts := by
  cases ts with
  | nil => simp [osWalkL, allFilesL]
  | cons t ts' =>
    cases t with
    | node n fs subs =>
      simp [osWalkL, allFilesL,
        osWalk_flatMap (root ++ [n]) (DirTree.node n fs subs),
        osWalkL_flatMap root ts']
end

theorem filesProcessed_nonrecursive (inputDir : PathT) (t : DirTree) :
    filesProcessed inputDir t false
      = (topFiles t).map fun f => inputDir ++ [f] := by
  cases t with
  | node n fs subs => simp [filesProcessed, osWalk, topFiles]

theorem filesProcessed_recursive (inputDir : PathT) (t : DirTree) :
    filesProcessed inputDir t true = allFiles inputDir t := by
  simp [filesProcessed, osWalk_flatMap]

/-- C7: with recursion disabled the walker dispatches exactly the files of
the top-level directory (no subdirectory at any depth contributes); with
recursion enabled it dispatches the files of every nested subdirectory. -/
theorem walker_respects_recursion_flag (faultOf : PathT → Option FailPoint)
    (inputDir : PathT) (t : DirTree) (outDir : PathT) (fs : FS) :
    (process_directory faultOf inputDir t outDir false fs).2.map logSrc
        = (topFiles t).map (fun f => inputDir ++ [f]) ∧
    (process_directory faultOf inputDir t outDir true fs).2.map logSrc
        = allFiles inputDir t := by
  constructor
  · rw [process_directory, processBatch_logSrc, filesProcessed_nonrecursive]
  · rw [process_directory, processBatch_logSrc, filesProcessed_recursive]

/-- C8: the destination is the output directory joined with the source's
base name, so two sources with the same base name (from different
subdirectories) share one destination path. -/
theorem output_paths_flattened (p1 p2 outDir : PathT)
    (h : nameOf p1 = nameOf p2) :
    outPathOf outDir p1 = outDir ++ [nameOf p1] ∧
    outPathOf outDir p1 = outPathOf outDir p2 :=
  ⟨rfl, by simp [outPathOf, h]⟩

/-- C8 witness: `a/f.pdf` and `b/sub/f.pdf` collide at `out/f.pdf`. -/
theorem output_paths_flattened_witness :
    outPathOf ["out"] ["a", "f.pdf"] = ["out"] ++ [nameOf ["a", "f.pdf"]] ∧
    outPathOf ["out"] ["a", "f.pdf"] = outPathOf ["out"] ["b", "sub", "f.pdf"] :=
  output_paths_flattened ["a", "f.pdf"] ["b", "sub", "f.pdf"] ["out"] rfl

/-- C9: processing one file writes only at the destination path: every
other path, in particular the source file itself whenever it differs from
the destination, has unchanged content afterwards. -/
theorem source_file_never_written (fault : Option FailPoint)
    (p outDir : PathT) (fs : FS) (q : PathT) (h : q ≠ outPathOf outDir p) :
    lookupFS ((process_file fault p outDir fs).1) q = lookupFS fs q := by
  simp only [process_file]
  split_ifs
  · exact strip_pdf_frame _ _ _ _ _ h
  · exact strip_docx_frame _ _ _ _ _ h
  · exact strip_image_frame _ _ _ _ _ h
  · rfl

/-- C9 witness: processing `in/a.pdf` into `out/` leaves the source file's
content intact. -/
theorem source_file_never_written_witness :
    lookupFS ((process_file none ["in", "a.pdf"] ["out"]
        [(["in", "a.pdf"], FileData.pdf ⟨[1], some [("Author", "x")]⟩)]).1)
        ["in", "a.pdf"]
      = lookupFS
          [(["in", "a.pdf"], FileData.pdf ⟨[1], some [("Author", "x")]⟩)]
          ["in", "a.pdf"] :=
  source_file_never_written none ["in", "a.pdf"] ["out"]
    [(["in", "a.pdf"], FileData.pdf ⟨[1], some [("Author", "x")]⟩)]
    ["in", "a.pdf"] (by decide)

/-- C10: a file whose name yields an empty suffix (no dot, a leading-dot
name such as `.pdf`, or a trailing dot) is unsupported: no handler runs, a
warning naming the file is logged, and the file system is untouched. -/
theorem empty_suffix_means_unsupported (fault : Option FailPoint)
    (p outDir : PathT) (fs : FS) (h : pySuffix (nameOf p) = "") :
    process_file fault p outDir fs = (fs, [LogEntry.warn p]) := by
  have he : extOf p = "" := by rw [extOf, h]; rfl
  simp [process_file, he]

/-- C10 witness: the dotfile `.pdf` and the extensionless `README` are
both skipped with a warning. -/
theorem empty_suffix_means_unsupported_witness :
    process_file none [".pdf"] ["out"] [] = ([], [LogEntry.warn [".pdf"]]) ∧
    process_file none ["README"] ["out"] [] = ([], [LogEntry.warn ["README"]]) :=
  ⟨empty_suffix_means_unsupported none [".pdf"] ["out"] [] (by decide),
   empty_suffix_means_unsupported none ["README"] ["out"] [] (by decide)⟩
